import Mathlib

/-!
Verification development for the ai_interview repository.

The definitions below are shallow embeddings of the interview state
machine of the repository:
  * the plan builder (`backend/app/core/interview_planner.py` and the
    inline planner of `backend/app/core/graph.py`),
  * the fast-channel turn controller (`node_responder` /
    `route_after_responder` of `backend/app/core/graph.py`),
  * the progress estimator (`calculate_interview_progress` of
    `backend/app/core/voice_interview.py`),
  * the rollback operation
    (`backend/app/database/session_services/session_advanced.py`),
  * the evaluator/router decision table (modelled from the spec; only the
    decision enum and prompts appear in the sources).

Strings are embedded as `List Char`.  The Python regular-expression
character class `[^\w一-龥]` (used to clean text before matching)
is embedded by keeping ASCII alphanumerics, the underscore and the CJK
range U+4E00..U+9FA5 - the character sets the repository actually handles.
Python `str.lower` is embedded as ASCII case folding; the closing-phrase
keywords it is compared against contain no cased characters.
-/

set_option maxRecDepth 4000

-- ============================================================
-- Generic text helpers shared by the embedded functions
-- ============================================================

/-- Substring (contiguous) containment test: Python's `needle in hay`. -/
def isSubstr (needle hay : List Char) : Bool :=
  hay.tails.any (fun t => needle.isPrefixOf t)

/-- Python `str.strip()`: drop whitespace from both ends. -/
def pyStrip (s : List Char) : List Char :=
  ((s.dropWhile Char.isWhitespace).reverse.dropWhile Char.isWhitespace).reverse

/-- Characters kept by `re.sub(r'[^\w一-龥]', '', s)`:
ASCII alphanumerics, underscore, and the CJK block U+4E00..U+9FA5. -/
def isWordChar (c : Char) : Bool :=
  c.isAlphanum || c == '_' || (0x4e00 ≤ c.toNat && c.toNat ≤ 0x9fa5)

/-- The cleaning step applied to both the assistant text and the plan
question text before matching. -/
def cleanText (s : List Char) : List Char :=
  s.filter isWordChar

-- ============================================================
-- Plan builder (interview_planner.py / graph.py node_planner)
-- ============================================================

/-- One raw item of the decoded LLM plan JSON.  A field is `none` when the
JSON object does not carry the corresponding key ("id"/"topic"/"content"/
"question"/"type"). -/
structure RawQ where
  id : Option Int
  topic : Option (List Char)
  content : Option (List Char)
  question : Option (List Char)
  qtype : Option (List Char)
deriving DecidableEq

/-- A validated interview question record (the `type` field is named
`qtype` here). -/
structure Question where
  id : Int
  topic : List Char
  content : List Char
  qtype : List Char
deriving DecidableEq

/-- The backfill loop of `parse_plan_response` (interview_planner.py,
lines 217-226), also inlined in graph.py's `node_planner`: missing `id`
becomes the 1-based position, missing `topic` a placeholder, missing
`content` falls back to the raw `question` field and then to a generic
prompt, missing `type` becomes "tech". -/
def validateQuestion (i : Nat) (q : RawQ) : Question :=
  ⟨ q.id.getD (Int.ofNat (i + 1)),
    q.topic.getD "未知主题".data,
    q.content.getD (q.question.getD "请描述一下相关经验".data),
    q.qtype.getD "tech".data ⟩

/-- `parse_plan_response` after JSON decoding: backfill every item.  The
markdown-fence stripping and `json.loads` call are abstracted into the
`Option (List RawQ)` fed to the callers below (`none` = decoding raised). -/
def parse_plan_response (items : List RawQ) : List Question :=
  items.enum.map (fun p => validateQuestion p.1 p.2)

/-- The hard-coded fallback list `DEFAULT_QUESTIONS`
(interview_planner.py, lines 64-70). -/
def DEFAULT_QUESTIONS : List Question :=
  [ ⟨1, "自我介绍".data, "请做一个简短的自我介绍，包括你的教育背景和工作经历。".data, "intro".data⟩,
    ⟨2, "项目经验".data, "请介绍一个你最有成就感的项目。".data, "tech".data⟩,
    ⟨3, "技术能力".data, "你最擅长的技术栈是什么？".data, "tech".data⟩,
    ⟨4, "问题解决".data, "请描述一个你解决过的技术难题。".data, "behavior".data⟩,
    ⟨5, "职业规划".data, "你对未来的职业发展有什么规划？".data, "behavior".data⟩ ]

/-- `generate_interview_plan` (interview_planner.py, lines 234-332) for
the "full" output format, as a function of the decoded LLM response:
on success backfill and truncate to `max_questions` when over-produced;
on any decode failure return `DEFAULT_QUESTIONS[:max_questions]`. -/
def generate_interview_plan (resp : Option (List RawQ)) (max_questions : Nat) : List Question :=
  match resp with
  | some items =>
    let plan := parse_plan_response items
    if max_questions < plan.length then plan.take max_questions else plan
  | none => DEFAULT_QUESTIONS.take max_questions

/-- The plan produced by graph.py's `node_planner` (lines 289-326) as a
function of the decoded LLM response: backfill with NO truncation; on a
decode failure fall back to a SINGLE hard-coded intro question. -/
def node_planner (resp : Option (List RawQ)) : List Question :=
  match resp with
  | some items => parse_plan_response items
  | none => [⟨1, "自我介绍".data, "请先做一个简短的自我介绍".data, "intro".data⟩]

/-- The fixed question-type enum of the spec and of `InterviewQuestion`. -/
def questionTypes : List (List Char) :=
  ["intro", "tech", "behavior", "system_design"].map String.data

def validType (t : List Char) : Bool :=
  questionTypes.contains t

/-- The effective content `q.get("content", q.get("question", default))`
a raw item contributes after backfilling. -/
def effContent (q : RawQ) : List Char :=
  q.content.getD (q.question.getD "请描述一下相关经验".data)

/-- A raw LLM item whose present fields are already well formed: its
effective content is non-empty and its `type`, when present, is one of
the four enum values.  The backfill loop validates nothing beyond key
presence, so well-formedness of the output needs this on the input. -/
def rawOk (q : RawQ) : Bool :=
  !(effContent q).isEmpty &&
    (match q.qtype with
     | none => true
     | some t => validType t)

-- ============================================================
-- Fast-channel turn controller (graph.py node_responder / routing)
-- ============================================================

/-- The `turn_phase` field of `InterviewState`. -/
inductive Phase where
  | opening
  | feedback
deriving DecidableEq

/-- The slice of graph.py's `InterviewState` the responder and the router
read and write. -/
structure FastState where
  current_question_index : Nat
  interview_plan : List Question
  question_count : Nat
  follow_up_count : Nat
  turn_phase : Phase
deriving DecidableEq

/-- The partial state update a langgraph node returns: absent keys leave
the state untouched, `messages` entries are appended. -/
structure ResponderUpdate where
  messages : List (List Char)
  current_question_index : Option Nat
  question_count : Option Nat
  follow_up_count : Option Nat
  turn_phase : Option Phase
deriving DecidableEq

/-- graph.py `node_responder` (lines 358-436) as a pure transition.  The
text the fast LLM streams back is the opaque parameter `llmResponse`.
Opening phase: emit the greeting+question message and flip to feedback.
Feedback phase with `next_idx >= len(plan)`: advance the index and the
question count but emit NO message.  Otherwise: emit the transition
message, advance, and reset the follow-up counter. -/
def node_responder (llmResponse : List Char) (s : FastState) : ResponderUpdate :=
  match s.turn_phase with
  | Phase.opening => ⟨[llmResponse], none, none, none, some Phase.feedback⟩
  | Phase.feedback =>
    let next := s.current_question_index + 1
    if s.interview_plan.length ≤ next then
      ⟨[], some next, some (s.question_count + 1), none, none⟩
    else
      ⟨[llmResponse], some next, some (s.question_count + 1), some 0, none⟩

/-- Merging a node's partial update into the state (langgraph semantics:
counters overwrite, messages append - the message log is not part of
`FastState` here). -/
def applyResponderUpdate (s : FastState) (u : ResponderUpdate) : FastState :=
  ⟨ u.current_question_index.getD s.current_question_index,
    s.interview_plan,
    u.question_count.getD s.question_count,
    u.follow_up_count.getD s.follow_up_count,
    u.turn_phase.getD s.turn_phase ⟩

/-- Where the graph goes after the responder node. -/
inductive Route where
  | summary
  | waitForUser
deriving DecidableEq

/-- graph.py `route_after_responder` (lines 581-594): go to the summary
node exactly when the index has reached the plan length, otherwise END
(`waitForUser`). -/
def route_after_responder (s : FastState) : Route :=
  if s.interview_plan.length ≤ s.current_question_index then Route.summary
  else Route.waitForUser

-- ============================================================
-- Progress estimator (voice_interview.py calculate_interview_progress)
-- ============================================================

/-- A plan entry as the estimator reads it (`q.get("topic", "")`,
`q.get("content", "")`). -/
structure PlanQ where
  topic : List Char
  content : List Char
deriving DecidableEq

def defaultPlanQ : PlanQ := ⟨[], []⟩

/-- One transcript message (`msg.get("role")`, `msg.get("content", "")`). -/
structure Msg where
  role : String
  content : List Char
deriving DecidableEq

/-- The result dictionary of `calculate_interview_progress`. -/
structure ProgressResult where
  current_q_idx : Nat
  follow_up_count : Nat
  last_q_text : List Char
  is_complete : Bool
deriving DecidableEq

/-- The characters accepted by the `[个题问话]` class of the ordinal
patterns. -/
def ordinalSuffixChars : List Char := ['个', '题', '问', '话']

/-- Chinese numerals 一..十 used for questions 1..10. -/
def chineseNums : List Char := ['一', '二', '三', '四', '五', '六', '七', '八', '九', '十']

/-- Ordinal-marker matching: the `num_patterns` block of `is_match`
(voice_interview.py, lines 219-238).  `q_idx` is 0-based; the patterns
mention question number `q_idx+1`.  The patterns are searched in the RAW
assistant content.  The last-question aliases (最后一题 etc.) apply only
when `q_idx` is the final slot. -/
def numPatternMatch (planLen : Nat) (ai : List Char) (qIdx : Nat) : Bool :=
  let n := (toString (qIdx + 1)).data
  (ordinalSuffixChars.any fun c => isSubstr ('第' :: n ++ [c]) ai)
  || isSubstr ('第' :: n ++ ['阶', '段']) ai
  || (['.', '、'].any fun c => (n ++ [c]).isPrefixOf ai)
  || (['.', '、'].any fun c => isSubstr (n ++ [c]) ai)
  || (match chineseNums.get? qIdx with
      | some cn =>
        (ordinalSuffixChars.any fun c => isSubstr ['第', cn, c] ai)
        || isSubstr ['第', cn, '阶', '段'] ai
      | none => false)
  || (if qIdx + 1 == planLen then
        isSubstr "最后一题".data ai || isSubstr "最后一个问题".data ai
        || isSubstr "结束面试".data ai
      else false)

/-- Common topic words that need a reinforcing cue before they count as a
topic match. -/
def commonFilters : List (List Char) :=
  ["项目", "经验", "技术", "基础", "了解", "面试", "问题"].map String.data

/-- First character class of the reinforcing-cue regex
`第[一二三四五六七八九十\d][个环节题问话].*topic`. -/
def isOrdNumChar (c : Char) : Bool :=
  chineseNums.contains c || c.isDigit

/-- Second character class `[个环节题问话]` of the reinforcing-cue regex. -/
def cueChars : List Char := ['个', '环', '节', '题', '问', '话']

/-- The reinforcing-cue regex searched in the raw assistant content:
第, one numeral, one cue character, then (without crossing a newline,
since `.` does not match one) the cleaned topic. -/
def topicCueRegex (ai : List Char) (topic : List Char) : Bool :=
  (List.range ai.length).any fun s =>
    match ai.drop s with
    | '第' :: c1 :: c2 :: rest =>
      isOrdNumChar c1 && cueChars.contains c2 &&
        ((List.range (rest.length + 1)).any fun k =>
          (rest.take k).all (fun c => c != '\n') && topic.isPrefixOf (rest.drop k))
    | _ => false

/-- Topic matching: step 2 of `is_match` (voice_interview.py, lines
240-254).  A cleaned topic of length >= 2 that occurs in the cleaned
assistant text matches, except that a 2-character common word also needs
the ordinal cue regex or a preceding 关于 in the raw text. -/
def topicMatch (ai_raw : List Char) (clean_ai : List Char) (q_topic : List Char) : Bool :=
  let clean_topic := cleanText q_topic
  if 2 ≤ clean_topic.length then
    if isSubstr clean_topic clean_ai then
      if clean_topic.length ≤ 2 && commonFilters.contains clean_topic then
        topicCueRegex ai_raw clean_topic || isSubstr ('关' :: '于' :: clean_topic) ai_raw
      else true
    else false
  else false

/-- The cleaned first 40 characters of a question's content. -/
def contentCore (q_content : List Char) : List Char :=
  cleanText (q_content.take 40)

/-- Content matching: step 3 of `is_match` (voice_interview.py, lines
256-264).  A core of length >= 12 matches when one of its contiguous
10-character runs occurs in the cleaned assistant text; a non-empty core
of length 5..11 must occur whole; a core of length <= 4 never matches. -/
def contentMatch (clean_ai : List Char) (q_content : List Char) : Bool :=
  let core := contentCore q_content
  if 12 ≤ core.length then
    (List.range (core.length - 9)).any
      (fun j => isSubstr ((core.drop j).take 10) clean_ai)
  else if !core.isEmpty && decide (4 < core.length) then
    isSubstr core clean_ai
  else false

/-- `is_match` (voice_interview.py, lines 213-266): ordinal markers on
the raw text, then topic containment on the cleaned text, then the
content sliding-window check. -/
def is_match (planLen : Nat) (ai_content : List Char) (q_topic q_content : List Char)
    (q_idx : Nat) : Bool :=
  let clean_ai := cleanText ai_content
  numPatternMatch planLen ai_content q_idx
  || topicMatch ai_content clean_ai q_topic
  || contentMatch clean_ai q_content

/-- The loop state of `calculate_interview_progress`. -/
structure ProgState where
  current_q_idx : Nat
  follow_up_count : Nat
  last_q_text : List Char
  last_planned_q_found : Bool
deriving DecidableEq

/-- The `for i in range(current_q_idx + 1, len(plan))` scan: first index
strictly after the current one whose plan entry matches the content. -/
def findNext (plan : List PlanQ) (cur : Nat) (content : List Char) : Option Nat :=
  (List.range' (cur + 1) (plan.length - (cur + 1))).find?
    (fun i => is_match plan.length content (plan.getD i defaultPlanQ).topic
      (plan.getD i defaultPlanQ).content i)

/-- One iteration of the history loop of `calculate_interview_progress`
(voice_interview.py, lines 270-306), for a single message. -/
def progStep (plan : List PlanQ) (st : ProgState) (msg : Msg) : ProgState :=
  if msg.role = "assistant" then
    let content := pyStrip msg.content
    if content.isEmpty then st
    else
      match findNext plan st.current_q_idx content with
      | some i => ⟨i, 0, (plan.getD i defaultPlanQ).content, true⟩
      | none =>
        let curr := plan.getD st.current_q_idx defaultPlanQ
        if is_match plan.length content curr.topic curr.content st.current_q_idx then
          if st.last_planned_q_found then
            ⟨st.current_q_idx, st.follow_up_count + 1, content, true⟩
          else
            ⟨st.current_q_idx, st.follow_up_count, curr.content, true⟩
        else if st.last_planned_q_found && decide (10 < content.length) then
          ⟨st.current_q_idx, st.follow_up_count + 1, content, true⟩
        else st
  else st

/-- The fixed closing-phrase list of the completion check. -/
def closingKeywords : List (List Char) :=
  ["面试结束", "再见", "谢谢你的参加", "祝你生活愉快", "今天的面试就到这里",
   "辛苦了", "拜拜", "期待你的加入"].map String.data

def containsClosingPhrase (l : List Char) : Bool :=
  closingKeywords.any (fun kw => isSubstr kw l)

/-- The most recent assistant message's content, lower-cased (empty when
the history has no assistant message). -/
def lastAssistantLower (history : List Msg) : List Char :=
  match history.reverse.find? (fun m => m.role == "assistant") with
  | some m => m.content.map Char.toLower
  | none => []

/-- The completion check of `calculate_interview_progress`
(voice_interview.py, lines 308-322), evaluated after the scan. -/
def progressComplete (plan : List PlanQ) (idx fu : Nat) (lastAi : List Char) : Bool :=
  if plan.length - 1 ≤ idx then
    if containsClosingPhrase lastAi then true
    else if 3 ≤ fu then true
    else false
  else false

/-- The non-empty-plan body of `calculate_interview_progress`: fold the
per-message step over the history, then run the completion check. -/
def calcProgressCore (history : List Msg) (plan : List PlanQ) (initial_q_idx : Nat) :
    ProgressResult :=
  let st := history.foldl (progStep plan) ⟨initial_q_idx, 0, [], false⟩
  ⟨st.current_q_idx, st.follow_up_count, st.last_q_text,
    progressComplete plan st.current_q_idx st.follow_up_count (lastAssistantLower history)⟩

/-- `calculate_interview_progress` (voice_interview.py, lines 199-329).
An empty plan short-circuits to index 0 / no follow-ups / not complete,
discarding the supplied initial index. -/
def calculate_interview_progress (history : List Msg) (plan : List PlanQ)
    (initial_q_idx : Nat) : ProgressResult :=
  match plan with
  | [] => ⟨0, 0, [], false⟩
  | _ :: _ => calcProgressCore history plan initial_q_idx

-- ============================================================
-- Rollback (session_advanced.py rollback_session)
-- ============================================================

/-- One stored message row, reduced to the columns the rollback touches.
Timestamps are modelled as naturals. -/
structure DbMsg where
  role : String
  content : List Char
  timestamp : Nat
deriving DecidableEq

/-- The session-store state the rollback reads and writes: the message
log (kept in `ORDER BY timestamp ASC` order, the order every query of
this service uses) and the session's `question_count` column. -/
structure SessionDb where
  messages : List DbMsg
  question_count : Nat
deriving DecidableEq

/-- `rollback_session` (session_advanced.py, lines 123-160), as a
function from the store state and the index to (return value, new
state).  Index 0 deletes every message and zeroes `question_count`.  A
non-zero index looks up the message at that ordinal position: if none
exists the call returns False and changes nothing; otherwise every
message with `timestamp >= ` the target's timestamp is deleted and
`question_count` becomes the number of remaining user-role messages. -/
def rollback_session (db : SessionDb) (index : Nat) : Bool × SessionDb :=
  if index = 0 then (true, ⟨[], 0⟩)
  else
    match db.messages.get? index with
    | none => (false, db)
    | some target =>
      let remaining := db.messages.filter (fun m => decide (m.timestamp < target.timestamp))
      (true, ⟨remaining, (remaining.filter (fun m => m.role == "user")).length⟩)

-- ============================================================
-- Evaluator/Router variant (modelled from the spec)
-- ============================================================

/-- Modelled from the spec: the decision set of the Evaluator/Router
decision→transition table (§4.2).  The sources only declare the
`EvaluationDecision` enum (schemas.py, lines 110-116, which additionally
lists `ANSWER_INCORRECT`, a value the spec's table gives no transition
for) and the evaluator prompt (prompt.py, lines 216-248); the routing
code that consumes the decisions is not under src/. -/
inductive RouterDecision where
  | ANSWER_PASS
  | ANSWER_WEAK
  | ASK_CLARIFICATION
  | UNKNOWN
deriving DecidableEq

/-- The counters of the Evaluator/Router turn state. -/
structure RouterState where
  current_question_index : Nat
  follow_up_count : Nat
  clarify_count : Nat
  question_count : Nat
deriving DecidableEq

/-- Advancing to the next question: index +1, both retry counters reset,
question count +1. -/
def advanceQuestion (s : RouterState) : RouterState :=
  ⟨s.current_question_index + 1, 0, 0, s.question_count + 1⟩

/-- Modelled from the spec: the decision→transition table of §4.2.
ANSWER_PASS advances; ANSWER_WEAK below the follow-up cap stays and
increments `follow_up_count`, at the cap advances anyway;
ASK_CLARIFICATION below the clarify cap stays and increments
`clarify_count`, at the cap advances anyway; UNKNOWN advances in both
modes (the modes differ only in the explanation flag, not in the
counters). -/
def evaluatorStep (s : RouterState) (d : RouterDecision) : RouterState :=
  match d with
  | RouterDecision.ANSWER_PASS => advanceQuestion s
  | RouterDecision.ANSWER_WEAK =>
    if s.follow_up_count < 2 then
      ⟨s.current_question_index, s.follow_up_count + 1, s.clarify_count, s.question_count⟩
    else advanceQuestion s
  | RouterDecision.ASK_CLARIFICATION =>
    if s.clarify_count < 2 then
      ⟨s.current_question_index, s.follow_up_count, s.clarify_count + 1, s.question_count⟩
    else advanceQuestion s
  | RouterDecision.UNKNOWN => advanceQuestion s

/-- The initial Evaluator/Router state of a session. -/
def initialRouterState : RouterState := ⟨0, 0, 0, 0⟩

/-- The state reached after a sequence of evaluator decisions. -/
def runEvaluator (ds : List RouterDecision) : RouterState :=
  ds.foldl evaluatorStep initialRouterState

-- ============================================================
-- Concrete fixtures used by the witness theorems
-- ============================================================

/-- A decoded three-item LLM plan: one fully specified item, one all-keys
missing item, one item relying on the `question` fallback. -/
def demoRawItems : List RawQ :=
  [ ⟨some 1, some "Java并发".data, some "请解释线程池的工作原理".data, none, some "tech".data⟩,
    ⟨none, none, none, none, none⟩,
    ⟨none, some "项目".data, none, some "介绍一个你做过的项目".data, none⟩ ]

/-- A feedback-phase fast-channel state over a two-question plan. -/
def demoFastState : FastState :=
  ⟨1, DEFAULT_QUESTIONS.take 2, 1, 0, Phase.feedback⟩

/-- A two-question estimator plan. -/
def demoPlan : List PlanQ :=
  [ ⟨"自我介绍".data, "请做一个简短的自我介绍".data⟩,
    ⟨"项目经验".data, "请介绍一个你最有成就感的项目".data⟩ ]

/-- A transcript that reaches the last slot of `demoPlan` and ends with a
closing phrase. -/
def demoHist6 : List Msg :=
  [ ⟨"assistant", "现在是最后一题请介绍一个你最有成就感的项目".data⟩,
    ⟨"assistant", "谢谢你的参加面试结束".data⟩ ]

/-- A one-question estimator plan. -/
def demoPlan9 : List PlanQ :=
  [ ⟨"算法".data, "请描述一下你了解的排序算法的基本原理".data⟩ ]

/-- A transcript whose long assistant message matches no question of
`demoPlan9`. -/
def demoHist9 : List Msg :=
  [ ⟨"assistant", "你好欢迎参加今天的交流请放松心情慢慢说".data⟩,
    ⟨"user", "好的".data⟩ ]

/-- A four-message session store with strictly increasing timestamps. -/
def demoDb4 : SessionDb :=
  ⟨[ ⟨"assistant", "你好".data, 1⟩,
     ⟨"user", "我叫张三".data, 2⟩,
     ⟨"assistant", "请介绍项目".data, 3⟩,
     ⟨"user", "我做过电商系统".data, 4⟩ ], 2⟩

-- ============================================================
-- Helper lemmas
-- ============================================================

lemma isEmpty_false_of_len_pos {α : Type} {l : List α} (h : 0 < l.length) :
    l.isEmpty = false := by
  cases l with
  | nil => simp at h
  | cons a t => rfl

lemma mem_of_mem_enumFrom {α : Type} :
    ∀ {l : List α} {n : Nat} {p : Nat × α}, p ∈ l.enumFrom n → p.2 ∈ l := by
  intro l
  induction l with
  | nil => intro n p h; simp [List.enumFrom] at h
  | cons a t ih =>
    intro n p h
    simp only [List.enumFrom, List.mem_cons] at h
    rcases h with h | h
    · subst h; exact List.mem_cons_self _ _
    · exact List.mem_cons_of_mem _ (ih h)

lemma mem_of_mem_enum {α : Type} {l : List α} {p : Nat × α} (h : p ∈ l.enum) :
    p.2 ∈ l :=
  mem_of_mem_enumFrom h

-- ============================================================
-- Theorems for the claims
-- ============================================================

/-- C8: with an empty plan, `calculate_interview_progress` returns index
0, follow-up count 0, empty last-question text and not-complete for every
history and every initial index - the supplied initial index is
discarded. -/
theorem c8_empty_plan_constant :
    ∀ (history : List Msg) (initial_q_idx : Nat),
      calculate_interview_progress history [] initial_q_idx = ⟨0, 0, [], false⟩ := by
  intro history initial_q_idx
  rfl

/-- C2: the fast-channel controller routes to the summary node exactly
when the question index has reached the plan length, and in feedback
phase the responder emits no message exactly when the incremented index
reaches the plan length. -/
theorem c2_completion_exactness :
    (∀ s : FastState, route_after_responder s = Route.summary ↔
        s.interview_plan.length ≤ s.current_question_index)
    ∧ (∀ (r : List Char) (s : FastState), s.turn_phase = Phase.feedback →
        ((node_responder r s).messages = [] ↔
          s.interview_plan.length ≤ s.current_question_index + 1)) := by
  constructor
  · intro s
    by_cases h : s.interview_plan.length ≤ s.current_question_index
    · simp [route_after_responder, h]
    · simp [route_after_responder, h]
  · intro r s hphase
    by_cases h : s.interview_plan.length ≤ s.current_question_index + 1
    · simp [node_responder, hphase, h]
    · simp [node_responder, hphase, h]

/-- C2 witness: evaluation at a concrete feedback-phase state. -/
theorem c2_witness :
    demoFastState.turn_phase = Phase.feedback ∧
    ((node_responder "好的".data demoFastState).messages = [] ↔
      demoFastState.interview_plan.length ≤ demoFastState.current_question_index + 1) :=
  ⟨rfl, c2_completion_exactness.2 "好的".data demoFastState rfl⟩

/-- C10: a non-zero rollback index at or beyond the number of stored
messages returns False and leaves both the message log and
`question_count` untouched. -/
theorem c10_rollback_out_of_range :
    ∀ (db : SessionDb) (index : Nat), index ≠ 0 → db.messages.length ≤ index →
      rollback_session db index = (false, db) := by
  intro db index h0 hlen
  unfold rollback_session
  rw [if_neg h0, List.get?_eq_none.mpr hlen]

/-- C10 witness: evaluation at a concrete store and an out-of-range
index. -/
theorem c10_witness :
    ((5 : Nat) ≠ 0 ∧ demoDb4.messages.length ≤ 5) ∧
    rollback_session demoDb4 5 = (false, demoDb4) :=
  ⟨⟨by decide, by decide⟩, c10_rollback_out_of_range demoDb4 5 (by decide) (by decide)⟩

lemma evaluatorStep_counters_le (s : RouterState) (d : RouterDecision)
    (h : s.follow_up_count ≤ 2 ∧ s.clarify_count ≤ 2) :
    (evaluatorStep s d).follow_up_count ≤ 2 ∧ (evaluatorStep s d).clarify_count ≤ 2 := by
  obtain ⟨h1, h2⟩ := h
  cases d with
  | ANSWER_PASS => dsimp only [evaluatorStep, advanceQuestion]; omega
  | ANSWER_WEAK =>
    dsimp only [evaluatorStep]
    split_ifs with hlt
    · dsimp only []; omega
    · dsimp only [advanceQuestion]; omega
  | ASK_CLARIFICATION =>
    dsimp only [evaluatorStep]
    split_ifs with hlt
    · dsimp only []; omega
    · dsimp only [advanceQuestion]; omega
  | UNKNOWN => dsimp only [evaluatorStep, advanceQuestion]; omega

lemma foldl_evaluatorStep_counters_le :
    ∀ (ds : List RouterDecision) (s : RouterState),
      s.follow_up_count ≤ 2 ∧ s.clarify_count ≤ 2 →
      (ds.foldl evaluatorStep s).follow_up_count ≤ 2 ∧
        (ds.foldl evaluatorStep s).clarify_count ≤ 2 := by
  intro ds
  induction ds with
  | nil => intro s h; exact h
  | cons d rest ih =>
    intro s h
    exact ih (evaluatorStep s d) (evaluatorStep_counters_le s d h)

/-- C4: in the Evaluator/Router model, every reachable state keeps
`follow_up_count <= 2` and `clarify_count <= 2`, and a weak answer at the
follow-up cap (resp. a clarification request at the clarify cap) forces
an advance that resets both counters. -/
theorem c4_follow_up_clarify_cap :
    (∀ ds : List RouterDecision,
      (runEvaluator ds).follow_up_count ≤ 2 ∧ (runEvaluator ds).clarify_count ≤ 2)
    ∧ (∀ s : RouterState, 2 ≤ s.follow_up_count →
        evaluatorStep s RouterDecision.ANSWER_WEAK = advanceQuestion s)
    ∧ (∀ s : RouterState, 2 ≤ s.clarify_count →
        evaluatorStep s RouterDecision.ASK_CLARIFICATION = advanceQuestion s) := by
  refine ⟨?_, ?_, ?_⟩
  · intro ds
    exact foldl_evaluatorStep_counters_le ds initialRouterState ⟨by decide, by decide⟩
  · intro s h
    dsimp only [evaluatorStep]
    rw [if_neg (by omega)]
  · intro s h
    dsimp only [evaluatorStep]
    rw [if_neg (by omega)]

/-- C4 witness: a state at the follow-up cap advances on a weak
answer. -/
theorem c4_witness :
    2 ≤ (⟨0, 2, 0, 0⟩ : RouterState).follow_up_count ∧
    evaluatorStep ⟨0, 2, 0, 0⟩ RouterDecision.ANSWER_WEAK = advanceQuestion ⟨0, 2, 0, 0⟩ :=
  ⟨by decide, c4_follow_up_clarify_cap.2.1 ⟨0, 2, 0, 0⟩ (by decide)⟩

lemma parse_plan_response_length (items : List RawQ) :
    (parse_plan_response items).length = items.length := by
  simp [parse_plan_response]

lemma generate_some_eq_take (items : List RawQ) (N : Nat) :
    generate_interview_plan (some items) N = (parse_plan_response items).take N := by
  dsimp only [generate_interview_plan]
  split
  · rfl
  · next h => rw [List.take_of_length_le (by omega)]

lemma validateQuestion_ok (i : Nat) (q : RawQ) (h : rawOk q = true) :
    (validateQuestion i q).content ≠ [] ∧ validType (validateQuestion i q).qtype = true := by
  unfold rawOk at h
  rw [Bool.and_eq_true] at h
  obtain ⟨h1, h2⟩ := h
  constructor
  · show effContent q ≠ []
    intro hnil
    rw [hnil] at h1
    simp at h1
  · show validType (q.qtype.getD "tech".data) = true
    cases hq : q.qtype with
    | none => decide
    | some t =>
      rw [hq] at h2
      simpa using h2

/-- C1 counterexample: graph.py's `node_planner` falls back to a single
default question on unparseable LLM output, not to the default list
truncated/padded to `max_questions` - for `max_questions = 5` it returns
1 record, not 5. -/
theorem c1_counterexample :
    (node_planner none).length = 1 ∧ ¬ (node_planner none).length = 5 := by
  decide

/-- C1 (amended): `generate_interview_plan` returns the backfilled items
truncated to the first N (so exactly N records whenever the LLM produced
at least N), and each record is well formed provided the present raw
fields were; on unparseable output it returns the 5-item default list
truncated to N, which has exactly N well-formed records only when
N <= 5 (no padding exists); graph.py's `node_planner` neither truncates
nor pads and falls back to a single question. -/
theorem c1_plan_size_amended :
    (∀ (items : List RawQ) (N : Nat),
      generate_interview_plan (some items) N = (parse_plan_response items).take N)
    ∧ (∀ (items : List RawQ) (N : Nat), N ≤ items.length →
        (generate_interview_plan (some items) N).length = N)
    ∧ (∀ (items : List RawQ) (N : Nat), (∀ q ∈ items, rawOk q = true) →
        ∀ q ∈ generate_interview_plan (some items) N,
          q.content ≠ [] ∧ validType q.qtype = true)
    ∧ (∀ N : Nat, N ≤ 5 →
        (generate_interview_plan none N).length = N ∧
        ∀ q ∈ generate_interview_plan none N, q.content ≠ [] ∧ validType q.qtype = true)
    ∧ (node_planner none).length = 1 := by
  refine ⟨?_, ?_, ?_, ?_, ?_⟩
  · intro items N
    exact generate_some_eq_take items N
  · intro items N hN
    rw [generate_some_eq_take, List.length_take, parse_plan_response_length]
    omega
  · intro items N hok q hq
    rw [generate_some_eq_take] at hq
    have hq' := List.mem_of_mem_take hq
    unfold parse_plan_response at hq'
    rcases List.mem_map.mp hq' with ⟨⟨i, rq⟩, hmem, hval⟩
    have hrq : rq ∈ items := mem_of_mem_enum hmem
    rw [← hval]
    exact validateQuestion_ok i rq (hok rq hrq)
  · intro N hN
    interval_cases N <;> exact ⟨by decide, by decide⟩
  · decide

/-- C1 witness: evaluation at a concrete decoded plan and at a concrete
fallback size. -/
theorem c1_witness :
    ((2 : Nat) ≤ demoRawItems.length ∧
      (generate_interview_plan (some demoRawItems) 2).length = 2)
    ∧ ((3 : Nat) ≤ 5 ∧ (generate_interview_plan none 3).length = 3) :=
  ⟨⟨by decide, c1_plan_size_amended.2.1 demoRawItems 2 (by decide)⟩,
   ⟨by decide, (c1_plan_size_amended.2.2.2.1 3 (by decide)).1⟩⟩

/-- C7 counterexample: a question whose cleaned 40-character core has
exactly 4 characters never matches in the content step, even when it
occurs verbatim in the cleaned assistant text - the code requires
strictly more than 4 characters, not "at least 4". -/
theorem c7_counterexample :
    (contentCore "算法基础".data).length = 4 ∧
    isSubstr (contentCore "算法基础".data) "我们聊聊算法基础吧".data = true ∧
    contentMatch "我们聊聊算法基础吧".data "算法基础".data = false := by
  decide

/-- C7 (amended): with a cleaned 40-character core of length >= 12, the
content step matches exactly when some contiguous 10-character run of
the core occurs in the cleaned message; for cores of length 5..11 it
degrades to whole-core containment (requiring MORE than 4 characters);
cores of length <= 4 never match. -/
theorem c7_content_match_amended :
    (∀ (clean_ai q_content : List Char), 12 ≤ (contentCore q_content).length →
      (contentMatch clean_ai q_content = true ↔
        ∃ j, j < (contentCore q_content).length - 9 ∧
          isSubstr (((contentCore q_content).drop j).take 10) clean_ai = true))
    ∧ (∀ (clean_ai q_content : List Char),
        4 < (contentCore q_content).length → (contentCore q_content).length < 12 →
        contentMatch clean_ai q_content = isSubstr (contentCore q_content) clean_ai)
    ∧ (∀ (clean_ai q_content : List Char), (contentCore q_content).length ≤ 4 →
        contentMatch clean_ai q_content = false) := by
  refine ⟨?_, ?_, ?_⟩
  · intro clean_ai q_content h
    unfold contentMatch
    rw [if_pos h]
    rw [List.any_eq_true]
    constructor
    · rintro ⟨j, hj, hp⟩
      exact ⟨j, List.mem_range.mp hj, hp⟩
    · rintro ⟨j, hj, hp⟩
      exact ⟨j, List.mem_range.mpr hj, hp⟩
  · intro clean_ai q_content h1 h2
    unfold contentMatch
    rw [if_neg (by omega)]
    rw [if_pos ?hc]
    case hc =>
      rw [Bool.and_eq_true, Bool.not_eq_true', decide_eq_true_eq]
      exact ⟨isEmpty_false_of_len_pos (by omega), h1⟩
  · intro clean_ai q_content h
    unfold contentMatch
    rw [if_neg (by omega), if_neg ?hc]
    case hc =>
      rw [Bool.and_eq_true, Bool.not_eq_true', decide_eq_true_eq]
      rintro ⟨-, hgt⟩
      omega

lemma filter_lt_timestamp_eq_take :
    ∀ (l : List DbMsg), List.Pairwise (fun a b => a.timestamp < b.timestamp) l →
      ∀ (i : Nat) (t : DbMsg), l.get? i = some t →
        l.filter (fun m => decide (m.timestamp < t.timestamp)) = l.take i := by
  intro l
  induction l with
  | nil => intro _ i t ht; simp at ht
  | cons a rest ih =>
    intro hp i t ht
    rw [List.pairwise_cons] at hp
    obtain ⟨ha, hrest⟩ := hp
    cases i with
    | zero =>
      obtain rfl : a = t := by simpa using ht
      rw [List.take_zero, List.filter_cons_of_neg (by simp)]
      rw [List.filter_eq_nil_iff]
      intro m hm
      have := ha m hm
      simp only [decide_eq_true_eq]
      omega
    | succ j =>
      have ht' : rest.get? j = some t := by simpa using ht
      have hat : a.timestamp < t.timestamp := ha t (List.get?_mem ht')
      rw [List.take_succ_cons, List.filter_cons_of_pos (by simpa using hat)]
      rw [ih hrest j t ht']

/-- C5: rollback to index 0 empties the message log and zeroes
`question_count`; rollback to a valid non-zero index over a strictly
timestamp-ordered log keeps exactly the messages before that ordinal
position and recomputes `question_count` as the number of remaining
user-role messages. -/
theorem c5_rollback_suffix_delete :
    (∀ db : SessionDb, rollback_session db 0 = (true, ⟨[], 0⟩))
    ∧ (∀ (db : SessionDb) (index : Nat),
        List.Pairwise (fun a b => a.timestamp < b.timestamp) db.messages →
        index ≠ 0 → index < db.messages.length →
        rollback_session db index =
          (true, ⟨db.messages.take index,
            ((db.messages.take index).filter (fun m => m.role == "user")).length⟩)) := by
  constructor
  · intro db
    rfl
  · intro db index hp h0 hlen
    have hg : db.messages.get? index = some (db.messages.get ⟨index, hlen⟩) :=
      List.get?_eq_get hlen
    unfold rollback_session
    rw [if_neg h0, hg]
    dsimp only []
    rw [filter_lt_timestamp_eq_take db.messages hp index _ hg]

/-- C5 witness: a four-message transcript rolled back to index 0 leaves
an empty log with `question_count = 0`, and rolled back to index 2 keeps
exactly the first two messages. -/
theorem c5_witness :
    (List.Pairwise (fun a b => a.timestamp < b.timestamp) demoDb4.messages
      ∧ (2 : Nat) ≠ 0 ∧ 2 < demoDb4.messages.length)
    ∧ rollback_session demoDb4 0 = (true, ⟨[], 0⟩)
    ∧ rollback_session demoDb4 2 =
        (true, ⟨demoDb4.messages.take 2,
          ((demoDb4.messages.take 2).filter (fun m => m.role == "user")).length⟩) :=
  ⟨⟨by decide, by decide, by decide⟩,
   c5_rollback_suffix_delete.1 demoDb4,
   c5_rollback_suffix_delete.2 demoDb4 2 (by decide) (by decide) (by decide)⟩

lemma findNext_lt_of_some {plan : List PlanQ} {cur : Nat} {content : List Char} {i : Nat}
    (h : findNext plan cur content = some i) : cur < i := by
  have hmem := List.mem_of_find?_eq_some h
  have hrange := List.mem_range'_1.mp hmem
  omega

lemma progStep_idx_mono (plan : List PlanQ) (st : ProgState) (m : Msg) :
    st.current_q_idx ≤ (progStep plan st m).current_q_idx := by
  simp only [progStep]
  repeat' split
  all_goals try exact Nat.le_refl _
  all_goals next i hfind => exact Nat.le_of_lt (findNext_lt_of_some hfind)

lemma foldl_progStep_idx_mono (plan : List PlanQ) :
    ∀ (hist : List Msg) (st : ProgState),
      st.current_q_idx ≤ (hist.foldl (progStep plan) st).current_q_idx := by
  intro hist
  induction hist with
  | nil => intro st; exact Nat.le_refl _
  | cons m rest ih =>
    intro st
    exact Nat.le_trans (progStep_idx_mono plan st m) (ih (progStep plan st m))

lemma responder_idx_mono (r : List Char) (s : FastState) :
    s.current_question_index ≤
      (applyResponderUpdate s (node_responder r s)).current_question_index := by
  rcases s with ⟨idx, plan, qc, fu, ph⟩
  cases ph with
  | opening => exact Nat.le_refl _
  | feedback =>
    dsimp only [node_responder]
    split
    · exact Nat.le_succ _
    · exact Nat.le_succ _

/-- C3 counterexample: with an empty plan the estimator returns index 0
and so DOES decrease the index from a supplied initial index of 1,
without any rollback. -/
theorem c3_counterexample :
    (calculate_interview_progress [] ([] : List PlanQ) 1).current_q_idx = 0 ∧
    ¬ 1 ≤ (calculate_interview_progress [] ([] : List PlanQ) 1).current_q_idx := by
  decide

/-- C3 (amended): the question index never decreases - each fast-channel
responder turn and each processed history message leaves it equal or
larger, and a full estimator scan over a NON-EMPTY plan returns an index
at least the initial one (with an empty plan the estimator discards the
initial index and returns 0). -/
theorem c3_monotonic_amended :
    (∀ (r : List Char) (s : FastState),
      s.current_question_index ≤
        (applyResponderUpdate s (node_responder r s)).current_question_index)
    ∧ (∀ (plan : List PlanQ) (st : ProgState) (m : Msg),
        st.current_q_idx ≤ (progStep plan st m).current_q_idx)
    ∧ (∀ (history : List Msg) (plan : List PlanQ) (initial_q_idx : Nat), plan ≠ [] →
        initial_q_idx ≤
          (calculate_interview_progress history plan initial_q_idx).current_q_idx) := by
  refine ⟨responder_idx_mono, progStep_idx_mono, ?_⟩
  intro history plan initial_q_idx hne
  cases plan with
  | nil => exact absurd rfl hne
  | cons a l =>
    show initial_q_idx ≤ (calcProgressCore history (a :: l) initial_q_idx).current_q_idx
    exact foldl_progStep_idx_mono (a :: l) history ⟨initial_q_idx, 0, [], false⟩

/-- C3 witness: a non-empty plan with an empty history keeps the initial
index. -/
theorem c3_witness :
    demoPlan ≠ [] ∧
    1 ≤ (calculate_interview_progress [] demoPlan 1).current_q_idx :=
  ⟨by decide, c3_monotonic_amended.2.2 [] demoPlan 1 (by decide)⟩

lemma progressComplete_iff (plan : List PlanQ) (idx fu : Nat) (l : List Char) :
    progressComplete plan idx fu l = true ↔
      (plan.length - 1 ≤ idx ∧ (containsClosingPhrase l = true ∨ 3 ≤ fu)) := by
  unfold progressComplete
  split_ifs with h1 h2 h3
  · simp only [true_iff]
    exact ⟨h1, Or.inl h2⟩
  · simp only [true_iff]
    exact ⟨h1, Or.inr h3⟩
  · simp only [false_iff]
    rintro ⟨-, hc | hf⟩
    · exact h2 hc
    · exact h3 hf
  · simp only [false_iff]
    rintro ⟨hge, -⟩
    exact h1 hge

/-- C6: for a non-empty plan, the estimator reports completion exactly
when the estimated index has reached the last plan slot AND either the
most recent assistant message contains one of the fixed closing phrases
or the follow-up counter has reached 3. -/
theorem c6_completion_detection :
    ∀ (history : List Msg) (plan : List PlanQ) (initial_q_idx : Nat), plan ≠ [] →
      ((calculate_interview_progress history plan initial_q_idx).is_complete = true ↔
        (plan.length - 1 ≤
            (calculate_interview_progress history plan initial_q_idx).current_q_idx
          ∧ (containsClosingPhrase (lastAssistantLower history) = true
             ∨ 3 ≤ (calculate_interview_progress history plan initial_q_idx).follow_up_count))) := by
  intro history plan initial_q_idx hne
  cases plan with
  | nil => exact absurd rfl hne
  | cons a l =>
    show (calcProgressCore history (a :: l) initial_q_idx).is_complete = true ↔ _
    simp only [calcProgressCore]
    exact progressComplete_iff (a :: l) _ _ _

/-- C6 witness: a transcript that reaches the last slot and closes with
谢谢你的参加/面试结束. -/
theorem c6_witness :
    demoPlan ≠ [] ∧
    ((calculate_interview_progress demoHist6 demoPlan 0).is_complete = true ↔
      (demoPlan.length - 1 ≤
          (calculate_interview_progress demoHist6 demoPlan 0).current_q_idx
        ∧ (containsClosingPhrase (lastAssistantLower demoHist6) = true
           ∨ 3 ≤ (calculate_interview_progress demoHist6 demoPlan 0).follow_up_count))) :=
  ⟨by decide, c6_completion_detection demoHist6 demoPlan 0 (by decide)⟩

lemma progStep_fixed_of_no_match (plan : List PlanQ) (init : Nat) (m : Msg)
    (hinit : init < plan.length)
    (hm : m.role = "assistant" →
      ∀ i ∈ List.range plan.length, init ≤ i →
        is_match plan.length (pyStrip m.content) (plan.getD i defaultPlanQ).topic
          (plan.getD i defaultPlanQ).content i = false) :
    progStep plan ⟨init, 0, [], false⟩ m = ⟨init, 0, [], false⟩ := by
  simp only [progStep]
  by_cases hrole : m.role = "assistant"
  case neg => rw [if_neg hrole]
  case pos =>
    rw [if_pos hrole]
    have hall := hm hrole
    by_cases hc : (pyStrip m.content).isEmpty = true
    · rw [if_pos hc]
    · rw [if_neg hc]
      have hfind : findNext plan init (pyStrip m.content) = none := by
        apply List.find?_eq_none.mpr
        intro i hi
        have hrange := List.mem_range'_1.mp hi
        have h2 : i < plan.length := by omega
        simp only [Bool.not_eq_true]
        exact hall i (List.mem_range.mpr h2) (by omega)
      rw [hfind]
      have hcur := hall init (List.mem_range.mpr hinit) (Nat.le_refl init)
      rw [hcur]
      simp

lemma foldl_progStep_fixed (plan : List PlanQ) (init : Nat) (hinit : init < plan.length) :
    ∀ (hist : List Msg),
      (∀ m ∈ hist, m.role = "assistant" →
        ∀ i ∈ List.range plan.length, init ≤ i →
          is_match plan.length (pyStrip m.content) (plan.getD i defaultPlanQ).topic
            (plan.getD i defaultPlanQ).content i = false) →
      hist.foldl (progStep plan) ⟨init, 0, [], false⟩ = ⟨init, 0, [], false⟩ := by
  intro hist
  induction hist with
  | nil => intro _; rfl
  | cons m rest ih =>
    intro hall
    rw [List.foldl_cons,
      progStep_fixed_of_no_match plan init m hinit (hall m (List.mem_cons_self m rest))]
    exact ih (fun m' hm' => hall m' (List.mem_cons_of_mem m hm'))

/-- C9: when no assistant message matches any plan question at or after
the (in-range) initial index, the estimator returns the initial index
unchanged and a follow-up count of 0, however many long non-matching
assistant messages the history contains. -/
theorem c9_no_followup_before_anchor :
    ∀ (history : List Msg) (plan : List PlanQ) (initial_q_idx : Nat),
      initial_q_idx < plan.length →
      (∀ m ∈ history, m.role = "assistant" →
        ∀ i ∈ List.range plan.length, initial_q_idx ≤ i →
          is_match plan.length (pyStrip m.content) (plan.getD i defaultPlanQ).topic
            (plan.getD i defaultPlanQ).content i = false) →
      (calculate_interview_progress history plan initial_q_idx).current_q_idx = initial_q_idx
      ∧ (calculate_interview_progress history plan initial_q_idx).follow_up_count = 0 := by
  intro history plan initial_q_idx hinit hall
  cases plan with
  | nil => simp at hinit
  | cons a l =>
    have hfix := foldl_progStep_fixed (a :: l) initial_q_idx hinit history hall
    constructor
    · show (calcProgressCore history (a :: l) initial_q_idx).current_q_idx = initial_q_idx
      simp only [calcProgressCore, hfix]
    · show (calcProgressCore history (a :: l) initial_q_idx).follow_up_count = 0
      simp only [calcProgressCore, hfix]

/-- C9 witness: a long assistant message that matches nothing in a
one-question plan leaves the estimator at index 0 with no follow-ups. -/
theorem c9_witness :
    ((0 : Nat) < demoPlan9.length
      ∧ ∀ m ∈ demoHist9, m.role = "assistant" →
          ∀ i ∈ List.range demoPlan9.length, (0 : Nat) ≤ i →
            is_match demoPlan9.length (pyStrip m.content) (demoPlan9.getD i defaultPlanQ).topic
              (demoPlan9.getD i defaultPlanQ).content i = false)
    ∧ ((calculate_interview_progress demoHist9 demoPlan9 0).current_q_idx = 0
       ∧ (calculate_interview_progress demoHist9 demoPlan9 0).follow_up_count = 0) :=
  ⟨⟨by decide, by decide⟩,
   c9_no_followup_before_anchor demoHist9 demoPlan9 0 (by decide) (by decide)⟩

/-- C7 witness: a 7-character core uses whole-core containment. -/
theorem c7_witness :
    (4 < (contentCore "请介绍项目经验".data).length ∧
      (contentCore "请介绍项目经验".data).length < 12)
    ∧ contentMatch "下面请介绍项目经验吧".data "请介绍项目经验".data
        = isSubstr (contentCore "请介绍项目经验".data) "下面请介绍项目经验吧".data :=
  ⟨⟨by decide, by decide⟩,
   c7_content_match_amended.2.1 "下面请介绍项目经验吧".data "请介绍项目经验".data
     (by decide) (by decide)⟩
